import Mathlib

/-!
Verification development for the brand-asset lookup helper
(`core-mcp-dev/server.py` and `core-mcp-dev/process_colors.py`).

The Python source is shallowly embedded: module-level pattern tables become
Lean list constants in declaration order, Python dicts keyed by insertion
order become association lists, floats become exact rationals, and the
response dictionaries returned by the formatter become a tagged union with
one constructor per `return`-site, carrying the fields that distinguish the
shapes.  Python's stable `sorted` is modelled by a stable insertion sort
(the output of a stable sort is uniquely determined, so any stable
implementation is an exact model).
-/

/-! ## String machinery

Python's substring test `p in s` on lowercased strings is modelled on the
character lists underlying `String`. -/

/-- Prefix test on character lists. -/
def listIsPre : List Char → List Char → Bool
  | [], _ => true
  | _ :: _, [] => false
  | a :: as, b :: bs => a == b && listIsPre as bs

/-- Substring (contiguous) test on character lists. -/
def listHasSub (p : List Char) : List Char → Bool
  | [] => listIsPre p []
  | b :: bs => listIsPre p (b :: bs) || listHasSub p bs

/-- Model of the Python membership test `p in s` for strings. -/
def strIn (p s : String) : Bool := listHasSub p.data s.data

/-! ## Stable sorting

Python's `sorted` (and `list.sort`) is a stable sort; `reverse=True` keeps
equal-keyed elements in their original relative order.  `sortDescBy` /
`sortAscBy` are stable insertion sorts by a key into a linear order, with
the three properties used by the claims: permutation, sortedness, and
preservation of the relative order of equal-keyed elements (stated as a
`filter` equation). -/

section StableSort

variable {α : Type} {β : Type} [LinearOrder β]

/-- Insert `x` before the first element whose key is `≤ key x`
(descending order; `x` goes in front of equal keys because in our use the
already-sorted list holds only elements that occurred after `x`). -/
def insDescBy (key : α → β) (x : α) : List α → List α
  | [] => [x]
  | y :: ys => if key y ≤ key x then x :: y :: ys else y :: insDescBy key x ys

/-- Stable insertion sort, descending by key. -/
def sortDescBy (key : α → β) : List α → List α
  | [] => []
  | x :: xs => insDescBy key x (sortDescBy key xs)

/-- Insert `x` before the first element whose key is `≥ key x` (ascending). -/
def insAscBy (key : α → β) (x : α) : List α → List α
  | [] => [x]
  | y :: ys => if key x ≤ key y then x :: y :: ys else y :: insAscBy key x ys

/-- Stable insertion sort, ascending by key. -/
def sortAscBy (key : α → β) : List α → List α
  | [] => []
  | x :: xs => insAscBy key x (sortAscBy key xs)

end StableSort

/-! ## First-maximum selection

Python's `max(iterable, key=...)` returns the first element attaining the
maximal key; `pickMaxBy` models the underlying left fold that replaces the
current best only on a strictly larger key. -/

section PickMax

variable {α : Type}

/-- Left fold modelling Python `max(h :: t, key)`: keep the current best
unless a strictly larger key appears. -/
def pickMaxBy (key : α → ℚ) (h : α) (t : List α) : α :=
  t.foldl (fun best x => if key best < key x then x else best) h

end PickMax

/-! ## Data model

Embedding of the metadata snapshot and of the parsed-query record
produced by `SemanticAssetMatcher._parse_request`.  Python dicts are
association lists in insertion order; optional dict fields are `Option`;
floats are exact rationals. -/

/-- Asset kind: the `type` field of an asset record. -/
inductive AssetType where
  | logo
  | document
deriving DecidableEq, Repr

/-- One asset record of the inventory (`assets[product][asset_key]`).
Logo-specific and document-specific fields are optional, mirroring
`asset.get(...)` accesses in the source. -/
structure Asset where
  url : String
  filename : String
  ty : AssetType
  doc_type : Option String
  background : Option String
  layout : Option String
  color : Option String
  tags : List String
deriving DecidableEq, Repr

/-- The loaded inventory: `assets` keyed by product then asset key, in
encounter order, plus `index.products`. -/
structure Snapshot where
  assets : List (String × List (String × Asset))
  products : List String
deriving DecidableEq, Repr

/-- One entry of the `intent_scores` dict: category name, capped score and
the list of matched patterns. -/
structure IntentEntry where
  name : String
  score : ℚ
  patterns : List String
deriving DecidableEq, Repr

/-- Result of `_detect_color_context` (the `specific_colors` list is never
appended to by the source, so it is omitted as constantly empty). -/
structure ColorContext where
  has_color_intent : Bool
  color_type : Option String
  color_family : Option String
  usage_context : Option String
deriving DecidableEq, Repr

/-- A product-pattern match candidate: `(product, confidence, length, pattern)`
tuple collected by the first pass of product detection. -/
structure Candidate where
  prod : String
  conf : ℚ
  plen : ℕ
  pat : String
deriving DecidableEq, Repr

/-- The record returned by `_parse_request`. -/
structure Parsed where
  product : Option String
  background : Option String
  layout : Option String
  primary_intent : String
  intent_scores : List IntentEntry
  confidence : ℚ
  raw_request : String
  needs_ciq_disambiguation : Bool
  color_context : ColorContext
deriving DecidableEq, Repr

/-- A scored match `(score, asset, reason)` as produced by `_match_assets`. -/
abbrev ScoredMatch : Type := ℚ × Asset × String

/-! ## Pattern tables (constructor arguments of `SemanticAssetMatcher`),
in source declaration order. -/

/-- Table `self.product_patterns`. -/
def product_patterns : List (String × List String) :=
  [("ciq", ["ciq", "company", "brand", "main"]),
   ("fuzzball", ["fuzzball", "fuzz ball", "workload", "hpc"]),
   ("warewulf", ["warewulf", "cluster", "provisioning"]),
   ("apptainer", ["apptainer", "container", "scientific"]),
   ("ascender", ["ascender", "automation", "ansible"]),
   ("bridge", ["bridge", "centos", "migration"]),
   ("support", ["support", "ciq support"]),
   ("rlc", ["rlc", "rocky linux commercial", "rocky linux"]),
   ("rlc-ai", ["rlc-ai", "rlc ai", "rocky linux ai"]),
   ("rlc-hardened", ["rlc-hardened", "rlc hardened", "rocky linux hardened"]),
   ("rlc-lts", ["rlc-lts", "rlc lts", "rocky linux lts", "rocky linux commercial lts",
                "long term support", "long-term support", "lts"])]

/-- Table `self.background_patterns`. -/
def background_patterns : List (String × List String) :=
  [("light", ["light", "white", "light background"]),
   ("dark", ["dark", "black", "dark background"])]

/-- Table `self.layout_patterns`. -/
def layout_patterns : List (String × List String) :=
  [("icon", ["symbol", "icon", "favicon", "app icon"]),
   ("horizontal", ["horizontal", "wide", "header", "lockup"]),
   ("vertical", ["vertical", "tall", "stacked"]),
   ("onecolor", ["1-color", "1 color", "one color", "onecolor"]),
   ("twocolor", ["2-color", "2 color", "two color", "twocolor"]),
   ("green", ["green", "accent"])]

/-- Table `self.intent_categories`. -/
def intent_categories : List (String × List String) :=
  [("all_assets", ["everything", "all assets", "all materials", "complete set",
                   "full package", "everything available"]),
   ("documents", ["docs", "documentation", "papers", "materials", "content",
                  "files", "pdfs"]),
   ("sales_materials", ["sales", "brief", "sheet", "1-pager", "1 pager", "one pager",
                        "overview", "summary", "sales sheet"]),
   ("technical_docs", ["specs", "technical", "datasheet", "data sheet", "whitepaper",
                       "white paper", "guide", "manual"]),
   ("visual_assets", ["logos", "images", "graphics", "branding", "visual",
                      "brand assets"]),
   ("case_studies", ["case study", "success story", "customer story", "case studies"]),
   ("colors", ["colors", "color palette", "colour", "colours", "palette",
               "design tokens", "brand colors"]),
   ("color_families", ["blues", "reds", "greens", "grays", "greys", "oranges",
                       "purples", "color family", "colour family"]),
   ("design_system", ["design system", "ui colors", "interface colors",
                      "theme colors", "css variables"])]

/-- Table `self.color_patterns`. -/
def color_patterns : List (String × List String) :=
  [("brand_colors", ["brand", "primary", "accent", "company colors"]),
   ("semantic_colors", ["text", "background", "border", "foreground", "semantic"]),
   ("functional_colors", ["error", "warning", "success", "danger", "info"]),
   ("utility_colors", ["utility", "blue", "red", "green", "gray", "grey", "orange",
                       "purple", "pink", "indigo", "yellow"]),
   ("theme_colors", ["dark mode", "light mode", "theme", "dark theme", "light theme"])]

/-- Table `self.color_usage_patterns`. -/
def color_usage_patterns : List (String × List String) :=
  [("ui_elements", ["button", "input", "form", "card", "modal", "dropdown"]),
   ("text_colors", ["heading", "body text", "caption", "link", "disabled"]),
   ("state_colors", ["hover", "active", "focus", "disabled", "selected"]),
   ("feedback_colors", ["success", "error", "warning", "info", "danger"])]

/-! ## The parser (`_parse_request`) -/

/-- Inner loop of intent classification for one category: accumulate
`len(pattern)/15` and collect matched patterns. -/
def scoreCategory (ql : String) (pats : List String) : ℚ × List String :=
  pats.foldl
    (fun acc p => if strIn p ql then (acc.1 + (p.length : ℚ) / 15, acc.2 ++ [p]) else acc)
    (0, [])

/-- Intent classification: one entry per declared category, in declaration
order, score capped at 1. -/
def intentScoresOf (ql : String) : List IntentEntry :=
  intent_categories.map fun c =>
    { name := c.1, score := min (scoreCategory ql c.2).1 1,
      patterns := (scoreCategory ql c.2).2 }

/-- Score lookup in the intent-score list, default 0
(`intent_scores.get(name, ...).get('score', 0)`). -/
def intentScoreLookup (entries : List IntentEntry) (name : String) : ℚ :=
  ((entries.find? (fun e => e.name == name)).map (fun e => e.score)).getD 0

/-- First pass of product detection: every `(product, confidence, length,
pattern)` tuple whose alias occurs in the query, products and aliases in
declaration order (the nested append loop of the source builds exactly
this flattened list). -/
def allMatches (ql : String) : List Candidate :=
  product_patterns.flatMap fun c =>
    (c.2.filter (fun p => strIn p ql)).map fun p =>
      { prod := c.1, conf := min ((p.length : ℚ) / 10) (6/10), plen := p.length, pat := p }

/-- Sort key of `all_matches.sort(key=lambda x: (x[2], x[1]), reverse=True)`:
lexicographic on (pattern length, confidence), descending, stable. -/
def candKey (c : Candidate) : Lex (ℕ × ℚ) := toLex (c.plen, c.conf)

/-- The sorted candidate list. -/
def sortedMatches (ql : String) : List Candidate :=
  sortDescBy candKey (allMatches ql)

/-- Document-query test used by the product-resolution policy:
documents or sales-materials intent scored above zero. -/
def isDocumentQuery (entries : List IntentEntry) : Bool :=
  decide (0 < intentScoreLookup entries "documents") ||
    decide (0 < intentScoreLookup entries "sales_materials")

/-- Product resolution over the sorted candidates, including the special
RLC vs RLC-LTS policy of the source (lines 205-232 of `server.py`).
Returns the chosen product (if any) and its confidence contribution. -/
def resolveProduct (ql : String) (entries : List IntentEntry) : Option String × ℚ :=
  let ms := sortedMatches ql
  let isDoc := isDocumentQuery entries
  match ms with
  | [] => (none, 0)
  | m :: rest =>
    if isDoc && rest.isEmpty && (m.prod == "rlc") then
      if strIn "rlc" ql && !(strIn "rlc-lts" ql) then
        (some "rlc-lts", m.conf)
      else
        (some m.prod, m.conf)
    else
      let hasRlc := ms.any (fun x => x.prod == "rlc")
      let hasRlcLts := ms.any (fun x => x.prod == "rlc-lts")
      if isDoc && hasRlc && hasRlcLts then
        match ms.filter (fun x => x.prod == "rlc-lts") with
        | [] => (some m.prod, m.conf)
        | x :: _ => (some x.prod, x.conf)
      else
        (some m.prod, m.conf)

/-- Background/layout extraction: iterate the groups in declaration order;
if any alias of a group occurs, record that group (the `break` of the
source only leaves the inner loop, so a later matching group overwrites
an earlier one). -/
def extractFirstMatchTable (table : List (String × List String)) (ql : String) :
    Option String :=
  table.foldl
    (fun acc g => if g.2.any (fun p => strIn p ql) then some g.1 else acc) none

/-- Color-context detection (`_detect_color_context`): color-type and
usage-context scans share the overwrite behaviour of the background scan;
the family scan breaks out of its single loop, so the first family wins. -/
def detectColorContext (ql : String) (colorFamilies : List String) : ColorContext :=
  let ct := extractFirstMatchTable color_patterns ql
  let uc := extractFirstMatchTable color_usage_patterns ql
  let cf := colorFamilies.find? (fun f => strIn f ql)
  { has_color_intent := ct.isSome || cf.isSome,
    color_type := ct, color_family := cf, usage_context := uc }

/-- CIQ-disambiguation context test of `_parse_request`. -/
def isCiqProductQuery (ql : String) : Bool :=
  let contains_ciq := ["ciq", "company"].any (fun p => strIn p ql)
  let contains_product_context :=
    ["product", "products", "portfolio", "offerings", "solutions",
     "brands", "brand logos", "all logos", "available logos"].any (fun p => strIn p ql)
  let is_clearly_company_only :=
    ["ciq company logo", "main ciq logo", "ciq brand logo",
     "corporate logo", "company brand"].any (fun p => strIn p ql)
  contains_ciq && contains_product_context && !is_clearly_company_only

/-- The entry selected by `max(intent_scores.items(), key=score)`; the
list produced by `intentScoresOf` is never empty, so the default entry is
unreachable. -/
def primaryEntry (entries : List IntentEntry) : IntentEntry :=
  match entries with
  | [] => { name := "", score := 0, patterns := [] }
  | h :: t => pickMaxBy (fun e => e.score) h t

/-- Model of `SemanticAssetMatcher._parse_request`.  The loaded color
palette only enters through the family names scanned by
`_detect_color_context`, passed here as `colorFamilies`. -/
def parse_request (request : String) (colorFamilies : List String) : Parsed :=
  let ql := request.toLower
  let entries := intentScoresOf ql
  let pr := resolveProduct ql entries
  let primary := primaryEntry entries
  let background := extractFirstMatchTable background_patterns ql
  let layout := extractFirstMatchTable layout_patterns ql
  let tc1 := pr.2 + (if 0 < primary.score then primary.score * (5/10) else 0)
  let tc2 := if pr.1.isSome && decide ((3:ℚ)/10 < primary.score) then
      min (tc1 * (13/10)) 1
    else tc1
  { product := pr.1,
    background := background,
    layout := layout,
    primary_intent := primary.name,
    intent_scores := entries,
    confidence := min tc2 1,
    raw_request := request,
    needs_ciq_disambiguation := isCiqProductQuery ql && (pr.1 == some "ciq"),
    color_context := detectColorContext ql colorFamilies }

/-! ## Scoring (`_score_asset_semantic` and `_legacy_score_asset`) -/

/-- Sales-keyword list shared by scoring, classification and the global
query filter. -/
def sales_terms : List String := ["brief", "overview", "summary", "sales"]

/-- Technical-keyword list of classification and the global query filter. -/
def technical_terms : List String := ["spec", "technical", "guide", "manual"]

/-- Legacy logo scorer: documents short-circuit to 0.6; logos start at 0.3
with bonuses for background and layout agreement, capped at 1. -/
def legacy_score_asset (a : Asset) (p : Parsed) : ℚ :=
  if a.ty == AssetType.document then 6/10
  else
    let s : ℚ := 3/10
    let s := s + (if p.background.isSome && (a.background == p.background) then 4/10 else 0)
    let s := s + (if p.layout.isSome && (a.layout == p.layout) then 3/10 else 0)
    min s 1

/-- Intent-driven base score and reasons of `_score_asset_semantic`
(everything before the cross-intent boost).  The initial Python
`score = 0.4` is overwritten on every branch, so only the branch values
appear. -/
def score_base (a : Asset) (p : Parsed) : ℚ × List String :=
  if p.primary_intent == "all_assets" then
      (8/10, ["matches comprehensive asset request"])
    else if p.primary_intent == "documents" then
      if a.ty == AssetType.document then
        (9/10, ["document: " ++ (a.doc_type.getD "unknown type")])
      else
        (2/10, ["logo (documents requested)"])
    else if p.primary_intent == "sales_materials" then
      if a.ty == AssetType.document then
        let dt := (a.doc_type.getD "").toLower
        if sales_terms.any (fun t => strIn t dt) then
          (1, ["perfect sales material: " ++ (a.doc_type.getD "")])
        else
          (5/10, ["document: " ++ (a.doc_type.getD "")])
      else
        (3/10, ["logo (sales materials requested)"])
    else if p.primary_intent == "visual_assets" then
      if !(a.ty == AssetType.document) then
        let s := legacy_score_asset a p
        let r :=
          if p.background.isSome && (a.background == p.background) then
            "logo optimized for " ++ (p.background.getD "") ++ " backgrounds"
          else if p.layout.isSome && (a.layout == p.layout) then
            "exact " ++ (p.layout.getD "") ++ " match"
          else
            (a.layout.getD "unknown") ++ " logo"
        (s, [r])
      else
        (1/10, ["document (logos requested)"])
    else
      if a.ty == AssetType.document then
        (6/10, ["document: " ++ (a.doc_type.getD "unknown type")])
      else
        (legacy_score_asset a p, ["logo match"])

/-- Semantic scorer returning `(score, reason)`: base score by intent,
then the cross-intent boost, multiplying by 1.1 (capped at 1) when more
than one intent category scored above 0.3, and the joined reason string. -/
def score_asset_semantic (a : Asset) (p : Parsed) : ℚ × String :=
  let base := score_base a p
  let highIntentCount :=
    (p.intent_scores.filter (fun e => decide ((3:ℚ)/10 < e.score))).length
  let boosted :=
    if 1 < highIntentCount then
      (min (base.1 * (11/10)) 1, base.2 ++ ["matches multiple intents"])
    else base
  (boosted.1, String.intercalate " + " boosted.2)

/-! ## Matching (`_match_assets`) -/

/-- Dict lookup `asset_data['assets'].get(product)` over the association
list (first matching key, as in a Python dict there is at most one). -/
def lookupAssets (S : Snapshot) (product : String) : Option (List (String × Asset)) :=
  (S.assets.find? (fun e => e.1 == product)).map (fun e => e.2)

/-- The scored matches in asset-map encounter order, keeping only scores
above zero (the `if score > 0` filter of the source). -/
def rawMatches (S : Snapshot) (product : String) (p : Parsed) : List ScoredMatch :=
  match lookupAssets S product with
  | none => []
  | some assets =>
    (assets.map fun ka =>
        ((score_asset_semantic ka.2 p).1, ka.2, (score_asset_semantic ka.2 p).2)).filter
      fun m => decide (0 < m.1)

/-- `_match_assets`: encounter-ordered scored matches, sorted by score
descending with Python's stable `sorted`. -/
def match_assets (S : Snapshot) (product : String) (p : Parsed) : List ScoredMatch :=
  sortDescBy (fun m => m.1) (rawMatches S product p)

/-! ## Response formatting -/

/-- Result of `_classify_assets_by_intent`: the per-asset append loop of
the source builds exactly these ordered filters (`technical_docs` only
receives documents that did not match a sales keyword, because of the
`elif`). -/
structure Classification where
  allAssets : List Asset
  logos : List Asset
  documents : List Asset
  sales_materials : List Asset
  technical_docs : List Asset
  visual_assets : List Asset
deriving DecidableEq, Repr

/-- Sales-keyword test on a document doc_type (lowercased, default empty). -/
def docTypeMatchesSales (a : Asset) : Bool :=
  sales_terms.any fun t => strIn t ((a.doc_type.getD "").toLower)

/-- Technical-keyword test on a document doc_type. -/
def docTypeMatchesTechnical (a : Asset) : Bool :=
  technical_terms.any fun t => strIn t ((a.doc_type.getD "").toLower)

/-- Model of `_classify_assets_by_intent`. -/
def classify_assets_by_intent (assets : List Asset) : Classification :=
  { allAssets := assets
    logos := assets.filter fun a => !(a.ty == AssetType.document)
    documents := assets.filter fun a => a.ty == AssetType.document
    sales_materials := assets.filter fun a =>
      (a.ty == AssetType.document) && docTypeMatchesSales a
    technical_docs := assets.filter fun a =>
      (a.ty == AssetType.document) && !(docTypeMatchesSales a) && docTypeMatchesTechnical a
    visual_assets := assets.filter fun a => !(a.ty == AssetType.document) }

/-- Confidence banding (`_get_confidence_level`). -/
def get_confidence_level (score : ℚ) : String :=
  if 8/10 ≤ score then "high"
  else if 4/10 ≤ score then "medium"
  else "low"

/-- Model of `_generate_suggestion`. -/
def generate_suggestion (p : Parsed) : String :=
  let s1 : List String :=
    if p.background.isNone then ["specify the background (light or dark)"] else []
  let s2 : List String :=
    if p.layout.isNone then
      if p.product == some "ciq" then ["specify variant (onecolor, twocolor, or green)"]
      else ["specify layout (icon, horizontal, or vertical)"]
    else []
  let suggestions := s1 ++ s2
  if suggestions.isEmpty then "Great match! This should work perfectly for your needs."
  else "For more precise results, try also mentioning: " ++
    String.intercalate ", " suggestions

/-- Python `str.title()`: uppercase each letter that follows a non-letter,
lowercase the other letters. -/
def titleCaseAux : Bool → List Char → List Char
  | _, [] => []
  | prevAlpha, c :: t =>
    let c2 := if c.isAlpha then (if prevAlpha then c.toLower else c.toUpper) else c
    c2 :: titleCaseAux c.isAlpha t

/-- Python `str.title()` on a string. -/
def titleCase (s : String) : String := ⟨titleCaseAux false s.data⟩

/-- Placeholder asset for the total model of partial list accesses
(`list[0]` on lists the source has already checked to be non-empty). -/
def defaultAsset : Asset :=
  { url := "", filename := "", ty := AssetType.logo, doc_type := none,
    background := none, layout := none, color := none, tags := [] }

/-- Placeholder scored match, same role as `defaultAsset`. -/
def defaultMatch : ScoredMatch := (0, defaultAsset, "")

/-- One option of the guided response: layout group with an example asset. -/
structure GuidedOption where
  layout : String
  example_url : String
  count : ℕ
  description : String
  background_note : String
deriving DecidableEq, Repr

/-- Layout blurbs of `_get_layout_description`. -/
def get_layout_description (layout : String) : String :=
  if layout == "icon" then "Square symbol, perfect for favicons and app icons"
  else if layout == "horizontal" then "Wide format, great for headers and business cards"
  else if layout == "vertical" then "Tall format, ideal for mobile and social media"
  else if layout == "onecolor" then "Clean single-color CIQ logo"
  else if layout == "twocolor" then "Full-color CIQ logo with green accent"
  else if layout == "green" then "Green CIQ logo for brand accent"
  else titleCase layout ++ " layout"

/-- The response object: one constructor per `return`-site of the source
formatter, carrying the distinguishing payload of the returned dict.  The
color branch (`_handle_color_query`) is carried as a tagged delegation,
as no claim concerns the palette projections it performs. -/
inductive Response where
  | colorQueryResp (intent : String) (ctx : ColorContext)
  | globalEmptyResp (label : String)
  | globalGroupedResp (label : String) (total : ℕ)
      (byProduct : List (String × List Asset))
  | productHelpResp (products : List String)
  | ciqDisambigResp (products : List String)
  | noneFoundResp (product : String)
  | comprehensiveResp (product : String) (logos : List Asset) (documents : List Asset)
  | docsNoneButLogosResp (product : String) (logos : List Asset)
  | docFocusedResp (product : String) (label : String)
      (documents : List Asset) (logos : List Asset)
  | clarifyBackgroundResp (product : String)
  | perfectSingleResp (product : String) (m : ScoredMatch)
  | perfectMultipleResp (product : String) (ms : List ScoredMatch) (suggestion : String)
  | exactSingleResp (product : String) (m : ScoredMatch)
  | narrowedPerfectResp (product : String) (m : ScoredMatch)
  | bestMatchesResp (product : String) (ms : List ScoredMatch) (suggestion : String)
  | bestOptionsResp (product : String) (ms : List ScoredMatch) (level : String)
      (suggestion : String)
  | guidedResp (product : String) (options : List GuidedOption) (matchCount : ℕ)
deriving DecidableEq, Repr

/-- Shape discriminator: help/menu response (`_generate_product_help`). -/
def Response.isHelp : Response → Bool
  | .productHelpResp _ => true
  | _ => false

/-- Shape discriminator: either of the two global-query response shapes. -/
def Response.isGlobal : Response → Bool
  | .globalEmptyResp _ => true
  | .globalGroupedResp _ _ _ => true
  | _ => false

/-- Shape discriminator: the clarifying what-background question. -/
def Response.isClarify : Response → Bool
  | .clarifyBackgroundResp _ => true
  | _ => false

/-- Shape discriminator: the comprehensive all-assets listing. -/
def Response.isComprehensive : Response → Bool
  | .comprehensiveResp _ _ _ => true
  | _ => false

/-- Insertion-order grouping step (Python dict accumulation). -/
def upsertGroup {γ : Type} (k : String) (v : γ) :
    List (String × List γ) → List (String × List γ)
  | [] => [(k, [v])]
  | (k2, l) :: t => if k2 == k then (k2, l ++ [v]) :: t else (k2, l) :: upsertGroup k v t

/-- Group a list by a string key, keys in first-encounter order, values in
encounter order (a Python `dict` of lists built by appending). -/
def groupByKeyStr {γ : Type} (key : γ → String) (l : List γ) :
    List (String × List γ) :=
  l.foldl (fun acc v => upsertGroup (key v) v acc) []

/-- Intent label of the empty global response. -/
def global_intent_label_empty (intent : String) : String :=
  if intent == "documents" then "documents"
  else if intent == "sales_materials" then "solution briefs or sales materials"
  else if intent == "technical_docs" then "technical documentation"
  else if intent == "all_assets" then "assets"
  else "assets"

/-- Intent label of the grouped global response. -/
def global_intent_label (intent : String) : String :=
  if intent == "documents" then "documents"
  else if intent == "sales_materials" then "solution briefs and sales materials"
  else if intent == "technical_docs" then "technical documentation"
  else if intent == "all_assets" then "assets"
  else "assets"

/-- Per-asset inclusion predicate of `_handle_global_query`. -/
def global_should_include (intent : String) (a : Asset) : Bool :=
  if intent == "all_assets" then true
  else if intent == "documents" then a.ty == AssetType.document
  else if intent == "sales_materials" then
    (a.ty == AssetType.document) && docTypeMatchesSales a
  else if intent == "technical_docs" then
    (a.ty == AssetType.document) && docTypeMatchesTechnical a
  else false

/-- Model of `_format_global_response` (the enhanced assets carry their
product name). -/
def format_global_response (assets : List (String × Asset)) (p : Parsed) : Response :=
  match assets with
  | [] => Response.globalEmptyResp (global_intent_label_empty p.primary_intent)
  | _ :: _ =>
    let byProduct := groupByKeyStr (fun x => x.1) assets
    let results := byProduct.map fun g => (g.1.toUpper, g.2.map fun x => x.2)
    Response.globalGroupedResp (global_intent_label p.primary_intent) assets.length
      (sortAscBy (fun r => r.1) results)

/-- Model of `_handle_global_query`: scan every product's assets in
order, keep those matching the intent. -/
def handle_global_query (S : Snapshot) (p : Parsed) : Response :=
  let included := S.assets.flatMap fun pa =>
    (pa.2.filter fun ka => global_should_include p.primary_intent ka.2).map
      fun ka => (pa.1, ka.2)
  format_global_response included p

/-- Model of `_generate_guided_response`: group the product's assets by
layout, pick per group the first asset on the preferred light background
(else the first of the group). -/
def generate_guided_response (S : Snapshot) (product : String)
    (ms : List ScoredMatch) : Response :=
  match lookupAssets S product with
  | none => Response.productHelpResp S.products
  | some assets =>
    let groups := groupByKeyStr (fun a => a.layout.getD "") (assets.map fun ka => ka.2)
    let options := groups.map fun g =>
      let ex := ((g.2.find? fun a => a.background == some "light").getD
        (g.2.headD defaultAsset))
      { layout := g.1, example_url := ex.url, count := g.2.length,
        description := get_layout_description g.1,
        background_note := "Showing " ++ (ex.color.getD "") ++ " version (for " ++
          (ex.background.getD "") ++ " backgrounds)" : GuidedOption }
    Response.guidedResp product options ms.length

/-- Model of `_format_legacy_enhanced_response`.  The branch structure is
kept: the clarifying question short-circuits, then perfect (`> 1.0`) and
exact (`>= 1.0`) match cardinalities drive the shape, then the
medium-confidence options list, then the guided response. -/
def format_legacy_enhanced_response (S : Snapshot) (ms : List ScoredMatch)
    (p : Parsed) : Response :=
  let lvl := get_confidence_level p.confidence
  if (lvl == "low" || lvl == "medium") && p.product.isSome &&
      p.background.isNone && p.layout.isNone then
    Response.clarifyBackgroundResp (p.product.getD "")
  else
    let perfect := ms.filter fun m => decide ((1:ℚ) < m.1)
    let exact := ms.filter fun m => decide ((1:ℚ) ≤ m.1)
    if lvl == "high" && perfect.length == 1 then
      Response.perfectSingleResp (p.product.getD "") (perfect.headD defaultMatch)
    else if lvl == "high" && 1 < perfect.length then
      Response.perfectMultipleResp (p.product.getD "") perfect (generate_suggestion p)
    else if lvl == "high" && exact.length == 1 then
      Response.exactSingleResp (p.product.getD "") (exact.headD defaultMatch)
    else if lvl == "high" && 1 < exact.length then
      let cands :=
        if p.background.isSome && p.layout.isSome then
          exact.filter fun m =>
            (m.2.1.background == p.background) && (m.2.1.layout == p.layout)
        else []
      if cands.length == 1 then
        Response.narrowedPerfectResp (p.product.getD "") (cands.headD defaultMatch)
      else
        Response.bestMatchesResp (p.product.getD "") (exact.take 3) (generate_suggestion p)
    else if ((lvl == "high" || lvl == "medium") && ms.length ≤ 4) ||
        (lvl == "medium" && p.background.isSome && 0 < exact.length) then
      let toShow := if p.background.isSome && 0 < exact.length then exact else ms
      Response.bestOptionsResp (p.product.getD "") (toShow.take 3) lvl
        (generate_suggestion p)
    else
      generate_guided_response S (p.product.getD "") ms

/-- Model of `_format_document_focused_response`. -/
def format_document_focused_response (cls : Classification) (p : Parsed) : Response :=
  if cls.documents.isEmpty then
    Response.docsNoneButLogosResp (p.product.getD "") cls.logos
  else
    let label := if p.primary_intent == "sales_materials" then "sales materials"
      else "documents"
    Response.docFocusedResp (p.product.getD "") label cls.documents cls.logos

/-- Model of `_format_response`. -/
def format_response (S : Snapshot) (ms : List ScoredMatch) (p : Parsed) : Response :=
  match ms with
  | [] => Response.noneFoundResp (p.product.getD "")
  | _ :: _ =>
    if p.needs_ciq_disambiguation then
      Response.ciqDisambigResp
        ((S.products.filter fun x => !(x == "ciq")).map titleCase)
    else
      let cls := classify_assets_by_intent (ms.map fun m => m.2.1)
      if p.primary_intent == "all_assets" then
        Response.comprehensiveResp (p.product.getD "") cls.logos cls.documents
      else if p.primary_intent == "documents" ||
          p.primary_intent == "sales_materials" then
        format_document_focused_response cls p
      else
        format_legacy_enhanced_response S ms p

/-- Model of `SemanticAssetMatcher.find_assets` for a loaded snapshot (the
data-not-loaded guard and the try/except wrapper of the MCP tool sit
outside this total function). -/
def find_assets (S : Snapshot) (colorFamilies : List String) (request : String) :
    Response :=
  let p := parse_request request colorFamilies
  if p.primary_intent == "colors" || p.primary_intent == "color_families" ||
      p.primary_intent == "design_system" then
    Response.colorQueryResp p.primary_intent p.color_context
  else
    match p.product with
    | some prod => format_response S (match_assets S prod p) p
    | none =>
      if p.primary_intent == "documents" || p.primary_intent == "sales_materials" ||
          p.primary_intent == "technical_docs" || p.primary_intent == "all_assets" then
        handle_global_query S p
      else
        Response.productHelpResp S.products

/-! ## Color-family shade ordering (`process_colors.extract_color_families`) -/

/-- One shade entry of a color family. -/
structure Shade where
  shade : String
  property : String
  value : String
deriving DecidableEq, Repr

/-- Decimal value of a digit run. -/
def natOfDigits (l : List Char) : ℕ :=
  l.foldl (fun n c => 10 * n + (c.toNat - 48)) 0

/-- First maximal run of digits in a character list
(`re.findall(r"\d+", s)[0]`). -/
def firstDigitRun : List Char → Option (List Char)
  | [] => none
  | c :: t =>
    if c.isDigit then some ((c :: t).takeWhile Char.isDigit)
    else firstDigitRun t

/-- Sort key of the shade sort: the first numeric token of the label, or
500 when the label holds no digit. -/
def shadeSortKey (label : String) : ℕ :=
  match firstDigitRun label.data with
  | none => 500
  | some ds => natOfDigits ds

/-- The `family.sort(key=...)` call on one family's shade list (Python
`list.sort` is stable and ascending). -/
def sortShades (shades : List Shade) : List Shade :=
  sortAscBy (fun s => shadeSortKey s.shade) shades

/-! ## First-declared-maximum characterization of the primary intent -/

/-- Specification-side selection: the first entry whose score is at least
every entry's score (the explicit statement of the first-declared-wins
tie-break). -/
def firstMaxIntent (entries : List IntentEntry) : Option IntentEntry :=
  entries.find? fun e => entries.all fun y => decide (y.score ≤ e.score)

/-- Cross-intent boost in the words of the spec: multiply by 1.1 and cap
at 1 exactly when more than one intent category scored above 0.3. -/
def crossIntentBoost (p : Parsed) (s : ℚ) : ℚ :=
  if 1 < (p.intent_scores.filter fun e => decide ((3:ℚ)/10 < e.score)).length then
    min (s * (11/10)) 1
  else s

/-! ## Demonstration snapshots for concrete runs -/

/-- A logo asset for light backgrounds. -/
def demoLogoLight : Asset :=
  { url := "https://assets.example/w-light.png", filename := "w-light.png",
    ty := AssetType.logo, doc_type := none, background := some "light",
    layout := some "horizontal", color := some "black", tags := [] }

/-- A logo asset for dark backgrounds. -/
def demoLogoDark : Asset :=
  { url := "https://assets.example/w-dark.png", filename := "w-dark.png",
    ty := AssetType.logo, doc_type := none, background := some "dark",
    layout := some "icon", color := some "white", tags := [] }

/-- A solution-brief document asset. -/
def demoBrief : Asset :=
  { url := "https://assets.example/brief.pdf", filename := "brief.pdf",
    ty := AssetType.document, doc_type := some "solution brief", background := none,
    layout := none, color := none, tags := [] }

/-- Snapshot with one product (warewulf) holding two logo variants. -/
def demoSnapshotW : Snapshot :=
  { assets := [("warewulf", [("warewulf-h-light", demoLogoLight),
                             ("warewulf-i-dark", demoLogoDark)])],
    products := ["warewulf"] }

/-- Snapshot with one product (rlc) holding two logo variants. -/
def demoSnapshotR : Snapshot :=
  { assets := [("rlc", [("rlc-h-light", demoLogoLight),
                        ("rlc-i-dark", demoLogoDark)])],
    products := ["rlc"] }

/-- A hand-built parsed record with all-assets intent and no matched
intent patterns, for concrete scorer runs. -/
def demoParsedAll : Parsed :=
  { product := some "warewulf", background := none, layout := none,
    primary_intent := "all_assets", intent_scores := [], confidence := 6/10,
    raw_request := "warewulf everything", needs_ciq_disambiguation := false,
    color_context := { has_color_intent := false, color_type := none,
                       color_family := none, usage_context := none } }

/-! ## Lemmas about the stable sorts -/

section StableSortLemmas

variable {α : Type} {β : Type} [LinearOrder β]

theorem insDescBy_perm (key : α → β) (x : α) (l : List α) :
    List.Perm (insDescBy key x l) (x :: l) := by
  induction l with
  | nil => exact List.Perm.refl _
  | cons y ys ih =>
    unfold insDescBy
    split
    · exact List.Perm.refl _
    · exact (List.Perm.cons y ih).trans (List.Perm.swap x y ys)

theorem sortDescBy_perm (key : α → β) (l : List α) : List.Perm (sortDescBy key l) l := by
  induction l with
  | nil => exact List.Perm.refl _
  | cons x xs ih =>
    exact (insDescBy_perm key x (sortDescBy key xs)).trans (List.Perm.cons x ih)

theorem insAscBy_perm (key : α → β) (x : α) (l : List α) :
    List.Perm (insAscBy key x l) (x :: l) := by
  induction l with
  | nil => exact List.Perm.refl _
  | cons y ys ih =>
    unfold insAscBy
    split
    · exact List.Perm.refl _
    · exact (List.Perm.cons y ih).trans (List.Perm.swap x y ys)

theorem sortAscBy_perm (key : α → β) (l : List α) : List.Perm (sortAscBy key l) l := by
  induction l with
  | nil => exact List.Perm.refl _
  | cons x xs ih =>
    exact (insAscBy_perm key x (sortAscBy key xs)).trans (List.Perm.cons x ih)

theorem insDescBy_pairwise (key : α → β) (x : α) (l : List α)
    (h : l.Pairwise (fun a b => key b ≤ key a)) :
    (insDescBy key x l).Pairwise (fun a b => key b ≤ key a) := by
  induction l with
  | nil => simp [insDescBy]
  | cons y ys ih =>
    rw [List.pairwise_cons] at h
    unfold insDescBy
    split
    · rename_i hy
      rw [List.pairwise_cons]
      refine ⟨?_, List.pairwise_cons.mpr h⟩
      intro z hz
      rcases List.mem_cons.mp hz with hzy | hzys
      · exact hzy ▸ hy
      · exact le_trans (h.1 z hzys) hy
    · rename_i hy
      rw [List.pairwise_cons]
      refine ⟨?_, ih h.2⟩
      intro z hz
      have hz' := (insDescBy_perm key x ys).mem_iff.mp hz
      rcases List.mem_cons.mp hz' with hzx | hzys
      · exact hzx ▸ le_of_lt (lt_of_not_le hy)
      · exact h.1 z hzys

theorem sortDescBy_pairwise (key : α → β) (l : List α) :
    (sortDescBy key l).Pairwise (fun a b => key b ≤ key a) := by
  induction l with
  | nil => simp [sortDescBy]
  | cons x xs ih => exact insDescBy_pairwise key x _ ih

theorem insAscBy_pairwise (key : α → β) (x : α) (l : List α)
    (h : l.Pairwise (fun a b => key a ≤ key b)) :
    (insAscBy key x l).Pairwise (fun a b => key a ≤ key b) := by
  induction l with
  | nil => simp [insAscBy]
  | cons y ys ih =>
    rw [List.pairwise_cons] at h
    unfold insAscBy
    split
    · rename_i hy
      rw [List.pairwise_cons]
      refine ⟨?_, List.pairwise_cons.mpr h⟩
      intro z hz
      rcases List.mem_cons.mp hz with hzy | hzys
      · exact hzy ▸ hy
      · exact le_trans hy (h.1 z hzys)
    · rename_i hy
      rw [List.pairwise_cons]
      refine ⟨?_, ih h.2⟩
      intro z hz
      have hz' := (insAscBy_perm key x ys).mem_iff.mp hz
      rcases List.mem_cons.mp hz' with hzx | hzys
      · exact hzx ▸ le_of_lt (lt_of_not_le hy)
      · exact h.1 z hzys

theorem sortAscBy_pairwise (key : α → β) (l : List α) :
    (sortAscBy key l).Pairwise (fun a b => key a ≤ key b) := by
  induction l with
  | nil => simp [sortAscBy]
  | cons x xs ih => exact insAscBy_pairwise key x _ ih

theorem insDescBy_filter_key (key : α → β) (x : α) (l : List α) (v : β) :
    (insDescBy key x l).filter (fun a => decide (key a = v)) =
      (x :: l).filter (fun a => decide (key a = v)) := by
  induction l with
  | nil => simp [insDescBy]
  | cons y ys ih =>
    unfold insDescBy
    split
    · rfl
    · rename_i hy
      simp only [List.filter_cons] at ih ⊢
      by_cases hx : key x = v
      · have hyv : ¬ (key y = v) := by
          intro hyv
          exact hy (le_of_eq (hyv.trans hx.symm))
        simpa [hx, hyv] using ih
      · by_cases hyv : key y = v
        · simpa [hx, hyv] using ih
        · simpa [hx, hyv] using ih

theorem sortDescBy_filter_key (key : α → β) (l : List α) (v : β) :
    (sortDescBy key l).filter (fun a => decide (key a = v)) =
      l.filter (fun a => decide (key a = v)) := by
  induction l with
  | nil => rfl
  | cons x xs ih =>
    calc (sortDescBy key (x :: xs)).filter (fun a => decide (key a = v))
        = (x :: sortDescBy key xs).filter (fun a => decide (key a = v)) :=
          insDescBy_filter_key key x _ v
      _ = (x :: xs).filter (fun a => decide (key a = v)) := by
          by_cases hx : key x = v <;> simp [List.filter_cons, hx, ih]

theorem insAscBy_filter_key (key : α → β) (x : α) (l : List α) (v : β) :
    (insAscBy key x l).filter (fun a => decide (key a = v)) =
      (x :: l).filter (fun a => decide (key a = v)) := by
  induction l with
  | nil => simp [insAscBy]
  | cons y ys ih =>
    unfold insAscBy
    split
    · rfl
    · rename_i hy
      by_cases hx : key x = v
      · have hyv : ¬ (key y = v) := by
          intro hyv
          exact hy (le_of_eq (hx.trans hyv.symm))
        simp only [List.filter_cons] at *
        simpa [hx, hyv] using ih
      · simp only [List.filter_cons] at *
        by_cases hyv : key y = v
        · simpa [hx, hyv] using ih
        · simpa [hx, hyv] using ih

theorem sortAscBy_filter_key (key : α → β) (l : List α) (v : β) :
    (sortAscBy key l).filter (fun a => decide (key a = v)) =
      l.filter (fun a => decide (key a = v)) := by
  induction l with
  | nil => rfl
  | cons x xs ih =>
    calc (sortAscBy key (x :: xs)).filter (fun a => decide (key a = v))
        = (x :: sortAscBy key xs).filter (fun a => decide (key a = v)) :=
          insAscBy_filter_key key x _ v
      _ = (x :: xs).filter (fun a => decide (key a = v)) := by
          by_cases hx : key x = v <;> simp [List.filter_cons, hx, ih]

theorem sortDescBy_length (key : α → β) (l : List α) :
    (sortDescBy key l).length = l.length :=
  (sortDescBy_perm key l).length_eq

end StableSortLemmas

/-! ## Lemmas about the first-maximum fold -/

section PickMaxLemmas

variable {α : Type}

theorem pickMaxBy_cons (key : α → ℚ) (h x : α) (t : List α) :
    pickMaxBy key h (x :: t) =
      if key h < key x then pickMaxBy key x t else pickMaxBy key h t := by
  unfold pickMaxBy
  simp only [List.foldl_cons]
  split <;> rfl

theorem key_le_pickMaxBy (key : α → ℚ) (h : α) (t : List α) :
    key h ≤ key (pickMaxBy key h t) := by
  induction t generalizing h with
  | nil => exact le_refl _
  | cons x t ih =>
    rw [pickMaxBy_cons]
    split
    · rename_i hlt
      exact le_trans (le_of_lt hlt) (ih x)
    · exact ih h

/-- The fold keeping the first maximum splits the list as
`before ++ best :: after` with everything before strictly smaller and
everything after at most the best key: exactly the
first-declared-wins tie-break. -/
theorem pickMaxBy_split (key : α → ℚ) (h : α) (t : List α) :
    ∃ pre post, h :: t = pre ++ pickMaxBy key h t :: post ∧
      (∀ y ∈ pre, key y < key (pickMaxBy key h t)) ∧
      (∀ y ∈ post, key y ≤ key (pickMaxBy key h t)) := by
  induction t generalizing h with
  | nil =>
    exact ⟨[], [], rfl, by simp, by simp⟩
  | cons x t ih =>
    rw [pickMaxBy_cons]
    split
    · rename_i hlt
      obtain ⟨pre, post, heq, hpre, hpost⟩ := ih x
      refine ⟨h :: pre, post, by rw [List.cons_append, ← heq], ?_, hpost⟩
      intro y hy
      rcases List.mem_cons.mp hy with hyh | hyp
      · exact hyh ▸ lt_of_lt_of_le hlt (key_le_pickMaxBy key x t)
      · exact hpre y hyp
    · rename_i hnlt
      obtain ⟨pre, post, heq, hpre, hpost⟩ := ih h
      cases pre with
      | nil =>
        simp only [List.nil_append] at heq
        obtain ⟨hh, ht⟩ := List.cons.inj heq
        refine ⟨[], x :: t, by rw [List.nil_append, ← hh], by simp, ?_⟩
        intro y hy
        rcases List.mem_cons.mp hy with hyx | hyt
        · rw [hyx, ← hh]
          exact le_of_not_lt hnlt
        · refine hpost y ?_
          rw [← ht]
          exact hyt
      | cons p ps =>
        simp only [List.cons_append] at heq
        obtain ⟨hp, hteq⟩ := List.cons.inj heq
        have hpre2 : ∀ y ∈ h :: ps, key y < key (pickMaxBy key h t) := by
          intro y hy
          refine hpre y ?_
          rw [← hp]
          exact hy
        have hhk : key h < key (pickMaxBy key h t) :=
          hpre2 h (List.mem_cons_self h ps)
        refine ⟨h :: x :: ps, post, ?_, ?_, hpost⟩
        · simp only [List.cons_append, ← hteq]
        · intro y hy
          rcases List.mem_cons.mp hy with hyh | hy2
          · rw [hyh]
            exact hhk
          · rcases List.mem_cons.mp hy2 with hyx | hyps
            · rw [hyx]
              exact lt_of_le_of_lt (le_of_not_lt hnlt) hhk
            · exact hpre2 y (List.mem_cons_of_mem h hyps)

end PickMaxLemmas

/-! ## Helper lemmas about the parser -/

theorem scoreCategory_go (ql : String) (pats : List String) (acc : ℚ × List String) :
    pats.foldl
      (fun acc p => if strIn p ql then (acc.1 + (p.length : ℚ) / 15, acc.2 ++ [p]) else acc)
      acc =
    (acc.1 + ((pats.filter (fun p => strIn p ql)).map (fun p => (p.length : ℚ) / 15)).sum,
     acc.2 ++ pats.filter (fun p => strIn p ql)) := by
  induction pats generalizing acc with
  | nil => simp
  | cons q qs ih =>
    simp only [List.foldl_cons, List.filter_cons]
    by_cases hq : strIn q ql
    · simp only [hq, if_true, ih, List.map_cons, List.sum_cons]
      refine congrArg₂ Prod.mk (by ring) ?_
      simp
    · simp [hq, ih]

theorem scoreCategory_eq (ql : String) (pats : List String) :
    scoreCategory ql pats =
      (((pats.filter (fun p => strIn p ql)).map (fun p => (p.length : ℚ) / 15)).sum,
       pats.filter (fun p => strIn p ql)) := by
  unfold scoreCategory
  rw [scoreCategory_go]
  simp

theorem scoreCategory_nonneg (ql : String) (pats : List String) :
    0 ≤ (scoreCategory ql pats).1 := by
  rw [scoreCategory_eq]
  refine List.sum_nonneg ?_
  intro x hx
  obtain ⟨p, _, hp⟩ := List.mem_map.mp hx
  rw [← hp]
  positivity

theorem intentScoresOf_entry_bounds (ql : String) :
    ∀ e ∈ intentScoresOf ql, 0 ≤ e.score ∧ e.score ≤ 1 := by
  intro e he
  obtain ⟨c, _, hc⟩ := List.mem_map.mp he
  rw [← hc]
  constructor
  · exact le_min (scoreCategory_nonneg ql c.2) (by norm_num)
  · exact min_le_right _ _

theorem intentScoresOf_names (ql : String) :
    (intentScoresOf ql).map (fun e => e.name) = intent_categories.map (fun c => c.1) := by
  unfold intentScoresOf
  rw [List.map_map]
  rfl

theorem intentScoresOf_ne_nil (ql : String) : intentScoresOf ql ≠ [] := by
  unfold intentScoresOf intent_categories
  simp

theorem intentScoresOf_empty_patterns (ql : String) :
    ∀ e ∈ intentScoresOf ql, e.patterns = [] → e.score = 0 := by
  intro e he hpat
  obtain ⟨c, _, hc⟩ := List.mem_map.mp he
  rw [← hc] at hpat ⊢
  simp only at hpat ⊢
  rw [scoreCategory_eq] at hpat ⊢
  simp only at hpat
  simp [hpat]

theorem pickMaxBy_mem {α : Type} (key : α → ℚ) (h : α) (t : List α) :
    pickMaxBy key h t ∈ h :: t := by
  obtain ⟨pre, post, heq, _, _⟩ := pickMaxBy_split key h t
  rw [heq]
  exact List.mem_append.mpr (Or.inr (List.mem_cons_self _ _))

theorem primaryEntry_mem (entries : List IntentEntry) (hne : entries ≠ []) :
    primaryEntry entries ∈ entries := by
  cases entries with
  | nil => exact absurd rfl hne
  | cons h t => exact pickMaxBy_mem _ h t

theorem allMatches_conf (ql : String) :
    ∀ x ∈ allMatches ql, 0 ≤ x.conf ∧ x.conf ≤ 6/10 := by
  intro x hx
  obtain ⟨c, _, hc⟩ := List.mem_flatMap.mp hx
  obtain ⟨p, _, hp⟩ := List.mem_map.mp hc
  rw [← hp]
  constructor
  · exact le_min (by positivity) (by norm_num)
  · exact min_le_right _ _

theorem sortedMatches_subset (ql : String) :
    ∀ x ∈ sortedMatches ql, x ∈ allMatches ql := by
  intro x hx
  exact (sortDescBy_perm candKey (allMatches ql)).mem_iff.mp hx

theorem resolveProduct_conf_cases (ql : String) (entries : List IntentEntry) :
    (resolveProduct ql entries).2 = 0 ∨
      ∃ x ∈ sortedMatches ql, (resolveProduct ql entries).2 = x.conf := by
  unfold resolveProduct
  cases hms : sortedMatches ql with
  | nil => exact Or.inl rfl
  | cons m rest =>
    have hm : m ∈ m :: rest := List.mem_cons_self _ _
    simp only
    split
    · split
      · exact Or.inr ⟨m, hm, rfl⟩
      · exact Or.inr ⟨m, hm, rfl⟩
    · split
      · cases hf : (m :: rest).filter (fun x => x.prod == "rlc-lts") with
        | nil => exact Or.inr ⟨m, hm, rfl⟩
        | cons x xs =>
          have hx : x ∈ (m :: rest).filter (fun x => x.prod == "rlc-lts") := by
            rw [hf]
            exact List.mem_cons_self _ _
          exact Or.inr ⟨x, (List.mem_filter.mp hx).1, rfl⟩
      · exact Or.inr ⟨m, hm, rfl⟩

theorem resolveProduct_conf_nonneg (ql : String) (entries : List IntentEntry) :
    0 ≤ (resolveProduct ql entries).2 := by
  rcases resolveProduct_conf_cases ql entries with h0 | ⟨x, hx, hc⟩
  · rw [h0]
  · rw [hc]
    exact (allMatches_conf ql x (sortedMatches_subset ql x hx)).1

/-! ## Helper lemmas about the scorer -/

theorem legacy_score_asset_bounds (a : Asset) (p : Parsed) :
    3/10 ≤ legacy_score_asset a p ∧ legacy_score_asset a p ≤ 1 := by
  unfold legacy_score_asset
  split
  · norm_num
  · constructor
    · refine le_min ?_ (by norm_num)
      split_ifs <;> norm_num
    · exact min_le_right _ _

theorem score_base_bounds (a : Asset) (p : Parsed) :
    1/10 ≤ (score_base a p).1 ∧ (score_base a p).1 ≤ 1 := by
  obtain ⟨hl1, hl2⟩ := legacy_score_asset_bounds a p
  unfold score_base
  split_ifs <;> try dsimp only
  all_goals try split_ifs
  all_goals try dsimp only
  all_goals constructor
  all_goals linarith

theorem score_asset_semantic_fst (a : Asset) (p : Parsed) :
    (score_asset_semantic a p).1 =
      if 1 < (p.intent_scores.filter fun e => decide ((3:ℚ)/10 < e.score)).length
      then min ((score_base a p).1 * (11/10)) 1
      else (score_base a p).1 := by
  unfold score_asset_semantic
  dsimp only
  split <;> rfl

theorem score_asset_semantic_bounds (a : Asset) (p : Parsed) :
    1/10 ≤ (score_asset_semantic a p).1 ∧ (score_asset_semantic a p).1 ≤ 1 := by
  obtain ⟨hb1, hb2⟩ := score_base_bounds a p
  rw [score_asset_semantic_fst]
  split
  · constructor
    · refine le_min (by nlinarith) (by norm_num)
    · exact min_le_right _ _
  · exact ⟨hb1, hb2⟩

theorem firstMaxIntent_eq_primaryEntry (entries : List IntentEntry)
    (h : entries ≠ []) : firstMaxIntent entries = some (primaryEntry entries) := by
  cases entries with
  | nil => exact absurd rfl h
  | cons e t =>
    obtain ⟨pre, post, heq, hpre, hpost⟩ := pickMaxBy_split (fun x => x.score) e t
    have hrmem : pickMaxBy (fun x => x.score) e t ∈ e :: t := pickMaxBy_mem _ e t
    have hmemall : ∀ y ∈ e :: t, y.score ≤ (pickMaxBy (fun x => x.score) e t).score := by
      intro y hy
      rw [heq] at hy
      rcases List.mem_append.mp hy with hyp | hyc
      · exact le_of_lt (hpre y hyp)
      · rcases List.mem_cons.mp hyc with hye | hyq
        · exact le_of_eq (congrArg (fun z => z.score) hye)
        · exact hpost y hyq
    have hrmem2 : pickMaxBy (fun x => x.score) e t ∈
        pre ++ pickMaxBy (fun x => x.score) e t :: post := by
      rw [← heq]
      exact hrmem
    have hmemall2 : ∀ y ∈ pre ++ pickMaxBy (fun x => x.score) e t :: post,
        y.score ≤ (pickMaxBy (fun x => x.score) e t).score := by
      intro y hy
      refine hmemall y ?_
      rw [heq]
      exact hy
    show List.find? _ (e :: t) = some (pickMaxBy (fun x => x.score) e t)
    rw [heq, List.find?_append]
    have hprenone :
        pre.find? (fun x => (pre ++ pickMaxBy (fun z => z.score) e t :: post).all
          fun y => decide (y.score ≤ x.score)) = none := by
      rw [List.find?_eq_none]
      intro x hx hall
      have hrx := List.all_eq_true.mp hall _ hrmem2
      exact absurd (of_decide_eq_true hrx) (not_le_of_lt (hpre x hx))
    have hpos :
        ((pre ++ pickMaxBy (fun z => z.score) e t :: post).all fun y =>
          decide (y.score ≤ (pickMaxBy (fun x => x.score) e t).score)) = true := by
      rw [List.all_eq_true]
      intro y hy
      exact decide_eq_true (hmemall2 y hy)
    rw [hprenone]
    have hfind : List.find?
        (fun x => (pre ++ pickMaxBy (fun z => z.score) e t :: post).all
          fun y => decide (y.score ≤ x.score))
        (pickMaxBy (fun x => x.score) e t :: post) =
        some (pickMaxBy (fun x => x.score) e t) :=
      List.find?_cons_of_pos _ hpos
    rw [hfind]
    rfl

/-! ## Raw-match lemmas -/

theorem rawMatches_score (S : Snapshot) (product : String) (p : Parsed) :
    ∀ m ∈ rawMatches S product p, ∃ a : Asset, m.1 = (score_asset_semantic a p).1 := by
  intro m hm
  unfold rawMatches at hm
  rcases hl : lookupAssets S product with _ | assets
  · rw [hl] at hm
    simp at hm
  · rw [hl] at hm
    obtain ⟨hm2, _⟩ := List.mem_filter.mp hm
    obtain ⟨ka, _, hka⟩ := List.mem_map.mp hm2
    exact ⟨ka.2, by rw [← hka]⟩

theorem match_assets_score_mem (S : Snapshot) (product : String) (p : Parsed) :
    ∀ m ∈ match_assets S product p, 1/10 ≤ m.1 ∧ m.1 ≤ 1 := by
  intro m hm
  have hm2 : m ∈ sortDescBy (fun m : ScoredMatch => m.1) (rawMatches S product p) := hm
  have hraw : m ∈ rawMatches S product p :=
    (sortDescBy_perm (fun m : ScoredMatch => m.1) (rawMatches S product p)).mem_iff.mp hm2
  obtain ⟨a, ha⟩ := rawMatches_score S product p m hraw
  rw [ha]
  exact score_asset_semantic_bounds a p

/-! ## Projections of the parsed record -/

theorem parse_request_product (request : String) (fams : List String) :
    (parse_request request fams).product =
      (resolveProduct request.toLower (intentScoresOf request.toLower)).1 := rfl

theorem parse_request_primary (request : String) (fams : List String) :
    (parse_request request fams).primary_intent =
      (primaryEntry (intentScoresOf request.toLower)).name := rfl

theorem parse_request_intent_scores (request : String) (fams : List String) :
    (parse_request request fams).intent_scores = intentScoresOf request.toLower := rfl

theorem parse_request_background (request : String) (fams : List String) :
    (parse_request request fams).background =
      extractFirstMatchTable background_patterns request.toLower := rfl

theorem parse_request_layout (request : String) (fams : List String) :
    (parse_request request fams).layout =
      extractFirstMatchTable layout_patterns request.toLower := rfl

theorem parse_request_confidence (request : String) (fams : List String) :
    (parse_request request fams).confidence =
      (let ql := request.toLower
       let entries := intentScoresOf ql
       let pr := resolveProduct ql entries
       let primary := primaryEntry entries
       let tc1 := pr.2 + (if 0 < primary.score then primary.score * (5/10) else 0)
       let tc2 := if pr.1.isSome && decide ((3:ℚ)/10 < primary.score) then
           min (tc1 * (13/10)) 1
         else tc1
       min tc2 1) := rfl

theorem score_asset_semantic_boost (a : Asset) (p : Parsed) :
    (score_asset_semantic a p).1 = crossIntentBoost p (score_base a p).1 := by
  rw [score_asset_semantic_fst]
  rfl

/-! ## Claim theorems -/

/-- C7: for every snapshot, resolved product and parsed query, the match
list returned by `_match_assets` is sorted in descending order of score,
and the matches of any given score appear in exactly the order in which
the assets were encountered in the product's asset map (stability of the
sort). -/
theorem match_assets_sorted_stable (S : Snapshot) (product : String) (p : Parsed) :
    (match_assets S product p).Pairwise (fun a b => b.1 ≤ a.1) ∧
    (∀ v : ℚ, (match_assets S product p).filter (fun m => decide (m.1 = v)) =
      (rawMatches S product p).filter (fun m => decide (m.1 = v))) := by
  constructor
  · exact sortDescBy_pairwise (fun m : ScoredMatch => m.1) (rawMatches S product p)
  · intro v
    exact sortDescBy_filter_key (fun m : ScoredMatch => m.1) (rawMatches S product p) v

/-- C9: the shade list of a color family is sorted ascending by the first
numeric token of the shade label, labels without digits ranking as 500 and
ordered stably among the numeric shades; on the labels 50, 100, 900, dark
the order is 50, 100, dark, 900. -/
theorem color_family_shade_order (shades : List Shade) :
    (sortShades shades).Pairwise
      (fun a b => shadeSortKey a.shade ≤ shadeSortKey b.shade) ∧
    List.Perm (sortShades shades) shades ∧
    (∀ v : ℕ, (sortShades shades).filter (fun s => decide (shadeSortKey s.shade = v)) =
      shades.filter (fun s => decide (shadeSortKey s.shade = v))) ∧
    shadeSortKey "dark" = 500 ∧
    sortShades
        [⟨"50", "utility-gray-50", "#fafafa"⟩, ⟨"100", "utility-gray-100", "#f5f5f5"⟩,
         ⟨"900", "utility-gray-900", "#171717"⟩, ⟨"dark", "utility-gray-dark", "#101010"⟩] =
      [⟨"50", "utility-gray-50", "#fafafa"⟩, ⟨"100", "utility-gray-100", "#f5f5f5"⟩,
       ⟨"dark", "utility-gray-dark", "#101010"⟩, ⟨"900", "utility-gray-900", "#171717"⟩] := by
  refine ⟨?_, ?_, ?_, rfl, by decide⟩
  · exact sortAscBy_pairwise (fun s : Shade => shadeSortKey s.shade) shades
  · exact sortAscBy_perm (fun s : Shade => shadeSortKey s.shade) shades
  · intro v
    exact sortAscBy_filter_key (fun s : Shade => shadeSortKey s.shade) shades v

/-- C10: the semantic score always lies in the interval from 0.1 to 1, so
the matcher's positivity filter keeps every asset of the resolved product,
and no match ever exceeds 1, leaving the formatter's perfect-match branch
(score strictly above 1) unreachable. -/
theorem semantic_score_bounds_and_matcher (S : Snapshot) (product : String)
    (p : Parsed) (a : Asset) :
    (1/10 ≤ (score_asset_semantic a p).1 ∧ (score_asset_semantic a p).1 ≤ 1) ∧
    (∀ assets, lookupAssets S product = some assets →
      (match_assets S product p).length = assets.length) ∧
    (match_assets S product p).filter (fun m => decide ((1:ℚ) < m.1)) = [] := by
  refine ⟨score_asset_semantic_bounds a p, ?_, ?_⟩
  · intro assets hl
    have hraw : rawMatches S product p =
        assets.map fun ka =>
          ((score_asset_semantic ka.2 p).1, ka.2, (score_asset_semantic ka.2 p).2) := by
      unfold rawMatches
      rw [hl]
      refine List.filter_eq_self.mpr ?_
      intro m hm
      obtain ⟨ka, _, hka⟩ := List.mem_map.mp hm
      rw [← hka]
      refine decide_eq_true (lt_of_lt_of_le ?_ (score_asset_semantic_bounds ka.2 p).1)
      norm_num
    calc (match_assets S product p).length
        = (rawMatches S product p).length :=
          sortDescBy_length (fun m : ScoredMatch => m.1) (rawMatches S product p)
      _ = assets.length := by rw [hraw, List.length_map]
  · rw [List.filter_eq_nil_iff]
    intro m hm
    have hle := (match_assets_score_mem S product p m hm).2
    simp only [decide_eq_true_eq]
    exact not_lt_of_le hle

set_option maxRecDepth 40000 in
/-- Witness for C10: on a concrete snapshot and parsed query, both logos
of the product survive the filter and no score exceeds 1. -/
theorem semantic_score_bounds_and_matcher_witness :
    lookupAssets demoSnapshotW "warewulf" =
      some [("warewulf-h-light", demoLogoLight), ("warewulf-i-dark", demoLogoDark)] ∧
    (match_assets demoSnapshotW "warewulf" demoParsedAll).length = 2 ∧
    (match_assets demoSnapshotW "warewulf" demoParsedAll).filter
      (fun m => decide ((1:ℚ) < m.1)) = [] := by
  have hl : lookupAssets demoSnapshotW "warewulf" =
      some [("warewulf-h-light", demoLogoLight), ("warewulf-i-dark", demoLogoDark)] := by
    with_unfolding_all rfl
  refine ⟨hl, ?_,
    (semantic_score_bounds_and_matcher demoSnapshotW "warewulf" demoParsedAll
      demoLogoLight).2.2⟩
  rw [(semantic_score_bounds_and_matcher demoSnapshotW "warewulf" demoParsedAll
    demoLogoLight).2.1 _ hl]
  rfl

/-- Helper: either global response shape is global and never the help menu. -/
theorem format_global_shape (assets : List (String × Asset)) (p : Parsed) :
    (format_global_response assets p).isGlobal = true ∧
    (format_global_response assets p).isHelp = false := by
  cases assets <;> exact ⟨rfl, rfl⟩

set_option maxRecDepth 10000 in
/-- C2 (corrected): the empty query never raises and never reaches the
help menu; because every intent score is 0 the first-declared category
`all_assets` becomes the primary intent, which is cross-product, so the
empty query takes the global-query path on every snapshot. -/
theorem find_assets_empty_query_global (S : Snapshot) (fams : List String) :
    (find_assets S fams "").isGlobal = true ∧ (find_assets S fams "").isHelp = false := by
  have h : find_assets S fams "" = handle_global_query S (parse_request "" fams) := by
    with_unfolding_all rfl
  rw [h]
  exact format_global_shape _ _

set_option maxRecDepth 40000 in
/-- Counterexample for C2 as stated: on a snapshot with one product and
two assets, the empty query returns the grouped global response over all
assets, not the help/menu response the claim requires. -/
theorem find_assets_empty_query_counterexample :
    (parse_request "" []).product = none ∧
    (parse_request "" []).primary_intent = "all_assets" ∧
    find_assets demoSnapshotW [] "" =
      Response.globalGroupedResp "assets" 2 [("WAREWULF", [demoLogoLight, demoLogoDark])] ∧
    (find_assets demoSnapshotW [] "").isHelp = false := by
  refine ⟨?_, ?_, ?_, ?_⟩ <;> with_unfolding_all rfl

/-- C5: for every query and loaded palette, the parsed record's confidence
lies in the interval from 0 to 1 and the intent-score table has exactly
one entry per declared category, in declaration order, each score in
[0,1] and 0 when no pattern of the category matched. -/
theorem parse_request_confidence_and_scores (request : String) (fams : List String) :
    (0 ≤ (parse_request request fams).confidence ∧
      (parse_request request fams).confidence ≤ 1) ∧
    ((parse_request request fams).intent_scores.map (fun e => e.name) =
      intent_categories.map (fun c => c.1)) ∧
    (∀ e ∈ (parse_request request fams).intent_scores,
      (0 ≤ e.score ∧ e.score ≤ 1) ∧ (e.patterns = [] → e.score = 0)) := by
  refine ⟨⟨?_, ?_⟩, ?_, ?_⟩
  · rw [parse_request_confidence]
    dsimp only
    refine le_min ?_ (by norm_num)
    have hpr := resolveProduct_conf_nonneg request.toLower (intentScoresOf request.toLower)
    have hpe := intentScoresOf_entry_bounds request.toLower _
      (primaryEntry_mem _ (intentScoresOf_ne_nil request.toLower))
    have htc1 : (0:ℚ) ≤ (resolveProduct request.toLower (intentScoresOf request.toLower)).2 +
        (if 0 < (primaryEntry (intentScoresOf request.toLower)).score then
          (primaryEntry (intentScoresOf request.toLower)).score * (5/10) else 0) := by
      refine add_nonneg hpr ?_
      split
      · nlinarith [hpe.1]
      · exact le_refl 0
    split
    · exact le_min (by nlinarith) (by norm_num)
    · exact htc1
  · rw [parse_request_confidence]
    dsimp only
    exact min_le_right _ _
  · rw [parse_request_intent_scores]
    exact intentScoresOf_names request.toLower
  · rw [parse_request_intent_scores]
    intro e he
    exact ⟨intentScoresOf_entry_bounds _ e he, intentScoresOf_empty_patterns _ e he⟩

set_option maxRecDepth 40000 in
/-- Witness for C5 at a concrete query: the confidence is within bounds
and the unmatched case-studies category has the empty pattern list and
score 0. -/
theorem parse_request_confidence_and_scores_witness :
    (0 ≤ (parse_request "warewulf logos" []).confidence ∧
      (parse_request "warewulf logos" []).confidence ≤ 1) ∧
    (⟨"case_studies", 0, []⟩ : IntentEntry) ∈
      (parse_request "warewulf logos" []).intent_scores ∧
    (0 ≤ (IntentEntry.score ⟨"case_studies", 0, []⟩) ∧
      (IntentEntry.score ⟨"case_studies", 0, []⟩) ≤ 1) ∧
    (IntentEntry.score ⟨"case_studies", 0, []⟩) = 0 := by
  obtain ⟨hconf, _, hentries⟩ := parse_request_confidence_and_scores "warewulf logos" []
  have hmem : (⟨"case_studies", 0, []⟩ : IntentEntry) ∈
      (parse_request "warewulf logos" []).intent_scores := by
    have hscores : (parse_request "warewulf logos" []).intent_scores =
        [⟨"all_assets", 0, []⟩, ⟨"documents", 0, []⟩, ⟨"sales_materials", 0, []⟩,
         ⟨"technical_docs", 0, []⟩, ⟨"visual_assets", 1/3, ["logos"]⟩,
         ⟨"case_studies", 0, []⟩, ⟨"colors", 0, []⟩, ⟨"color_families", 0, []⟩,
         ⟨"design_system", 0, []⟩] := by
      with_unfolding_all rfl
    rw [hscores]
    simp
  have he := hentries _ hmem
  exact ⟨hconf, hmem, he.1, he.2 rfl⟩

/-- C6: each intent category's score is the sum over its matched patterns
of length/15, capped at 1 per category, and the primary intent is the
first declared category attaining the maximal score. -/
theorem intent_scores_formula_and_primary (request : String) (fams : List String) :
    ((parse_request request fams).intent_scores =
      intent_categories.map fun c =>
        { name := c.1,
          score := min (((c.2.filter fun pat => strIn pat request.toLower).map
            fun pat => (pat.length : ℚ) / 15).sum) 1,
          patterns := c.2.filter fun pat => strIn pat request.toLower }) ∧
    (firstMaxIntent (parse_request request fams).intent_scores).map (fun e => e.name) =
      some (parse_request request fams).primary_intent := by
  constructor
  · rw [parse_request_intent_scores]
    unfold intentScoresOf
    refine List.map_congr_left ?_
    intro c _
    rw [scoreCategory_eq]
  · rw [parse_request_intent_scores, parse_request_primary,
      firstMaxIntent_eq_primaryEntry _ (intentScoresOf_ne_nil request.toLower)]
    rfl

/-- C4: the semantic scorer's base score follows the claimed case
analysis on the primary intent, every case then passing through the
cross-intent boost; the legacy scorer is the additive
0.3 / +0.4-background / +0.3-layout rule with documents fixed at 0.6. -/
theorem score_asset_semantic_case_analysis (a : Asset) (p : Parsed) :
    (legacy_score_asset a p =
      if a.ty = AssetType.document then 6/10
      else 3/10 + (if p.background.isSome ∧ a.background = p.background then 4/10 else 0)
        + (if p.layout.isSome ∧ a.layout = p.layout then 3/10 else 0)) ∧
    (p.primary_intent = "all_assets" →
      (score_asset_semantic a p).1 = crossIntentBoost p (8/10)) ∧
    (p.primary_intent = "documents" →
      (score_asset_semantic a p).1 =
        crossIntentBoost p (if a.ty = AssetType.document then 9/10 else 2/10)) ∧
    (p.primary_intent = "sales_materials" →
      (score_asset_semantic a p).1 =
        crossIntentBoost p
          (if a.ty = AssetType.document then (if docTypeMatchesSales a then 1 else 5/10)
           else 3/10)) ∧
    (p.primary_intent = "visual_assets" → a.ty ≠ AssetType.document →
      (score_asset_semantic a p).1 = crossIntentBoost p (legacy_score_asset a p)) ∧
    (p.primary_intent ≠ "all_assets" → p.primary_intent ≠ "documents" →
      p.primary_intent ≠ "sales_materials" → p.primary_intent ≠ "visual_assets" →
      (score_asset_semantic a p).1 =
        crossIntentBoost p
          (if a.ty = AssetType.document then 6/10 else legacy_score_asset a p)) := by
  refine ⟨?_, ?_, ?_, ?_, ?_, ?_⟩
  · unfold legacy_score_asset
    by_cases hd : a.ty = AssetType.document
    · simp [hd]
    · have hbeq : ((p.background.isSome && (a.background == p.background)) = true) ↔
          (p.background.isSome ∧ a.background = p.background) := by
        simp
      have hleq : ((p.layout.isSome && (a.layout == p.layout)) = true) ↔
          (p.layout.isSome ∧ a.layout = p.layout) := by
        simp
      simp only [hd, beq_iff_eq, if_false, ite_false, decide_eq_true_eq]
      rw [if_congr hbeq rfl rfl, if_congr hleq rfl rfl]
      refine min_eq_left ?_
      split_ifs <;> norm_num
  · intro h
    rw [score_asset_semantic_boost]
    have hb : (score_base a p).1 = 8/10 := by
      unfold score_base
      simp [h]
    rw [hb]
  · intro h
    rw [score_asset_semantic_boost]
    have hb : (score_base a p).1 = if a.ty = AssetType.document then 9/10 else 2/10 := by
      unfold score_base
      by_cases hd : a.ty = AssetType.document <;> simp [h, hd]
    rw [hb]
  · intro h
    rw [score_asset_semantic_boost]
    have hb : (score_base a p).1 =
        if a.ty = AssetType.document then (if docTypeMatchesSales a then 1 else 5/10)
        else 3/10 := by
      unfold score_base
      by_cases hd : a.ty = AssetType.document
      · by_cases hs : docTypeMatchesSales a
        · have hs2 := hs
          unfold docTypeMatchesSales at hs2
          simp [h, hd, hs, hs2]
        · have hs2 : (sales_terms.any fun t =>
              strIn t (a.doc_type.getD "").toLower) = false := by
            have := hs
            unfold docTypeMatchesSales at this
            exact Bool.not_eq_true _ ▸ (by simpa using this)
          simp [h, hd, hs, hs2]
      · simp [h, hd]
    rw [hb]
  · intro h hd
    rw [score_asset_semantic_boost]
    have hb : (score_base a p).1 = legacy_score_asset a p := by
      unfold score_base
      simp [h, hd]
    rw [hb]
  · intro h1 h2 h3 h4
    rw [score_asset_semantic_boost]
    have hb : (score_base a p).1 =
        if a.ty = AssetType.document then 6/10 else legacy_score_asset a p := by
      unfold score_base
      by_cases hd : a.ty = AssetType.document <;> simp [h1, h2, h3, h4, hd]
    rw [hb]

set_option maxRecDepth 40000 in
/-- Witness for C4: concrete runs of three branches of the case analysis
(all-assets flat 0.8; sales-materials perfect document 1.0; documents
intent on a logo 0.2), with the boost inactive since no intent category
of the concrete parsed record scores above 0.3. -/
theorem score_asset_semantic_case_analysis_witness :
    (score_asset_semantic demoLogoLight demoParsedAll).1 = 8/10 ∧
    (score_asset_semantic demoBrief
      { demoParsedAll with primary_intent := "sales_materials" }).1 = 1 ∧
    (score_asset_semantic demoLogoDark
      { demoParsedAll with primary_intent := "documents" }).1 = 2/10 := by
  refine ⟨?_, ?_, ?_⟩
  · have h := (score_asset_semantic_case_analysis demoLogoLight demoParsedAll).2.1 rfl
    rw [h]
    with_unfolding_all rfl
  · have h := (score_asset_semantic_case_analysis demoBrief
      { demoParsedAll with primary_intent := "sales_materials" }).2.2.2.1 rfl
    rw [h]
    with_unfolding_all rfl
  · have h := (score_asset_semantic_case_analysis demoLogoDark
      { demoParsedAll with primary_intent := "documents" }).2.2.1 rfl
    rw [h]
    with_unfolding_all rfl

/-- C8 (corrected): background and layout extraction are independent
alias-table scans without scoring, but the break of the source only
leaves the inner pattern loop, so among several matching groups the LAST
declared one wins: dark overrides light, and the layout is the last of
the six groups with a matching alias. -/
theorem background_layout_extraction_last_wins (request : String) (fams : List String) :
    ((parse_request request fams).background =
      if ["dark", "black", "dark background"].any (fun pat => strIn pat request.toLower)
      then some "dark"
      else if ["light", "white", "light background"].any
          (fun pat => strIn pat request.toLower)
      then some "light"
      else none) ∧
    ((parse_request request fams).layout =
      if ["green", "accent"].any (fun pat => strIn pat request.toLower) then some "green"
      else if ["2-color", "2 color", "two color", "twocolor"].any
          (fun pat => strIn pat request.toLower) then some "twocolor"
      else if ["1-color", "1 color", "one color", "onecolor"].any
          (fun pat => strIn pat request.toLower) then some "onecolor"
      else if ["vertical", "tall", "stacked"].any
          (fun pat => strIn pat request.toLower) then some "vertical"
      else if ["horizontal", "wide", "header", "lockup"].any
          (fun pat => strIn pat request.toLower) then some "horizontal"
      else if ["symbol", "icon", "favicon", "app icon"].any
          (fun pat => strIn pat request.toLower) then some "icon"
      else none) := by
  constructor
  · rw [parse_request_background]
    rfl
  · rw [parse_request_layout]
    rfl

set_option maxRecDepth 40000 in
/-- Counterexample for C8 as stated: in the query light dark an alias of
the first background group (light) matches, yet the extracted background
is dark, from the last matching group, so first-match-wins fails. -/
theorem background_extraction_counterexample :
    strIn "light" ("light dark".toLower) = true ∧
    strIn "dark" ("light dark".toLower) = true ∧
    (parse_request "light dark" []).background = some "dark" := by
  refine ⟨?_, ?_, ?_⟩ <;> with_unfolding_all rfl

/-- C1 (corrected): under a document-oriented intent (documents or
sales-materials score above zero), when candidates for both rlc and
rlc-lts are among the product matches the parser resolves to rlc-lts;
and when rlc is the sole candidate the parser resolves to rlc-lts
exactly under the additional literal-substring test of the source: the
text rlc occurs in the lowercased query and rlc-lts does not. -/
theorem rlc_document_query_resolution (request : String) (fams : List String) :
    (isDocumentQuery (intentScoresOf request.toLower) = true →
      (allMatches request.toLower).any (fun x => x.prod == "rlc") = true →
      (allMatches request.toLower).any (fun x => x.prod == "rlc-lts") = true →
      (parse_request request fams).product = some "rlc-lts") ∧
    (isDocumentQuery (intentScoresOf request.toLower) = true →
      ∀ m, allMatches request.toLower = [m] → m.prod = "rlc" →
        strIn "rlc" request.toLower = true → strIn "rlc-lts" request.toLower = false →
        (parse_request request fams).product = some "rlc-lts") := by
  constructor
  · intro hdoc hr hl
    have hr2 : (sortedMatches request.toLower).any (fun x => x.prod == "rlc") = true := by
      rw [List.any_eq_true] at hr ⊢
      obtain ⟨x, hx, hpx⟩ := hr
      exact ⟨x, (sortDescBy_perm candKey _).mem_iff.mpr hx, hpx⟩
    have hl2 : (sortedMatches request.toLower).any
        (fun x => x.prod == "rlc-lts") = true := by
      rw [List.any_eq_true] at hl ⊢
      obtain ⟨x, hx, hpx⟩ := hl
      exact ⟨x, (sortDescBy_perm candKey _).mem_iff.mpr hx, hpx⟩
    rw [parse_request_product]
    unfold resolveProduct
    cases hms : sortedMatches request.toLower with
    | nil =>
      rw [hms] at hr2
      simp at hr2
    | cons m rest =>
      rw [hms] at hr2 hl2
      have hone : (rest.isEmpty && (m.prod == "rlc")) = false := by
        cases hrest : rest.isEmpty
        · simp
        · have hrest2 : rest = [] := by
            cases rest with
            | nil => rfl
            | cons a b => simp [List.isEmpty] at hrest
          rw [hrest2] at hl2
          simp only [List.any_cons, List.any_nil, Bool.or_false] at hl2
          have hmlts : m.prod = "rlc-lts" := by
            exact of_decide_eq_true hl2
          rw [hmlts]
          simp
      simp only [hdoc, Bool.true_and, hone, Bool.and_false, Bool.false_and,
        Bool.if_false_left, Bool.and_true, if_false, ite_false]
      simp only [hr2, hl2, Bool.and_true, if_true, ite_true, Bool.true_and]
      cases hfil : (m :: rest).filter (fun x => x.prod == "rlc-lts") with
      | nil =>
        rw [List.any_eq_true] at hl2
        obtain ⟨x, hx, hpx⟩ := hl2
        have : x ∈ (m :: rest).filter (fun x => x.prod == "rlc-lts") :=
          List.mem_filter.mpr ⟨hx, hpx⟩
        rw [hfil] at this
        simp at this
      | cons y ys =>
        have hy : y ∈ (m :: rest).filter (fun x => x.prod == "rlc-lts") := by
          rw [hfil]
          exact List.mem_cons_self _ _
        have hyp : y.prod = "rlc-lts" := of_decide_eq_true (List.mem_filter.mp hy).2
        simp [hyp]
  · intro hdoc m hm hprod hsub hnot
    have hs : sortedMatches request.toLower = [m] := by
      unfold sortedMatches
      rw [hm]
      rfl
    rw [parse_request_product]
    unfold resolveProduct
    rw [hs]
    simp [hdoc, hprod, hsub, hnot]

set_option maxRecDepth 60000 in
/-- Witness for C1: the query rlc lts docs matches both products and
resolves to rlc-lts; the query rlc docs has the single candidate rlc and
also resolves to rlc-lts. -/
theorem rlc_document_query_resolution_witness :
    (parse_request "rlc lts docs" []).product = some "rlc-lts" ∧
    (parse_request "rlc docs" []).product = some "rlc-lts" := by
  constructor
  · refine (rlc_document_query_resolution "rlc lts docs" []).1 ?_ ?_ ?_ <;>
      with_unfolding_all rfl
  · refine (rlc_document_query_resolution "rlc docs" []).2 ?_
      { prod := "rlc", conf := min ((3:ℚ)/10) (6/10), plen := 3, pat := "rlc" }
      ?_ rfl ?_ ?_ <;> with_unfolding_all rfl

set_option maxRecDepth 60000 in
/-- Counterexample for C1 as stated: in the query rocky linux docs the
primary intent is documents, an alias of rlc (rocky linux) matches, the
literal rlc-lts does not occur, and yet the parser resolves to rlc and
not to rlc-lts (the special case additionally requires the literal
substring rlc, which this query lacks). -/
theorem rlc_document_query_resolution_counterexample :
    (parse_request "rocky linux docs" []).primary_intent = "documents" ∧
    isDocumentQuery (intentScoresOf ("rocky linux docs".toLower)) = true ∧
    (allMatches ("rocky linux docs".toLower)).any (fun x => x.prod == "rlc") = true ∧
    strIn "rlc-lts" ("rocky linux docs".toLower) = false ∧
    (parse_request "rocky linux docs" []).product = some "rlc" := by
  refine ⟨?_, ?_, ?_, ?_, ?_⟩ <;> with_unfolding_all rfl

/-- C3 (corrected): the clarifying what-background question is returned
exactly on the legacy formatting path: a product is resolved, the primary
intent is none of the color intents, not all-assets and not a document
intent, the CIQ disambiguation flag is off, at least one asset matched,
the confidence band is low or medium, and neither background nor layout
was extracted from the query. -/
theorem product_only_query_clarifies (S : Snapshot) (fams : List String)
    (request : String) (prod : String)
    (hprod : (parse_request request fams).product = some prod)
    (hcolor : ((parse_request request fams).primary_intent == "colors" ||
      (parse_request request fams).primary_intent == "color_families" ||
      (parse_request request fams).primary_intent == "design_system") = false)
    (hall : ((parse_request request fams).primary_intent == "all_assets") = false)
    (hdocs : ((parse_request request fams).primary_intent == "documents" ||
      (parse_request request fams).primary_intent == "sales_materials") = false)
    (hciq : (parse_request request fams).needs_ciq_disambiguation = false)
    (hmatch : match_assets S prod (parse_request request fams) ≠ [])
    (hlvl : (get_confidence_level (parse_request request fams).confidence == "low" ||
      get_confidence_level (parse_request request fams).confidence == "medium") = true)
    (hbg : (parse_request request fams).background = none)
    (hly : (parse_request request fams).layout = none) :
    find_assets S fams request = Response.clarifyBackgroundResp prod := by
  unfold find_assets
  simp only [hprod, hcolor, Bool.false_eq_true, if_false, ite_false]
  cases hms : match_assets S prod (parse_request request fams) with
  | nil => exact absurd hms hmatch
  | cons m rest =>
    unfold format_response
    simp only [hciq, Bool.false_eq_true, if_false, ite_false, hall, hdocs]
    unfold format_legacy_enhanced_response
    have hlvl2 : ((get_confidence_level (parse_request request fams).confidence == "low" ||
        get_confidence_level (parse_request request fams).confidence == "medium") &&
        (some prod).isSome &&
        (parse_request request fams).background.isNone &&
        (parse_request request fams).layout.isNone) = true := by
      rw [hlvl, hbg, hly]
      rfl
    dsimp only
    rw [hprod, if_pos hlvl2]
    rfl

set_option maxRecDepth 60000 in
/-- Witness for C3: the query rlc visual resolves rlc with visual intent
at medium confidence and no background or layout, and the formatter
returns the clarifying what-background question. -/
theorem product_only_query_clarifies_witness :
    find_assets demoSnapshotR [] "rlc visual" = Response.clarifyBackgroundResp "rlc" := by
  refine product_only_query_clarifies demoSnapshotR [] "rlc visual" "rlc"
    ?_ ?_ ?_ ?_ ?_ ?_ ?_ ?_ ?_
  case refine_6 =>
    intro hnil
    have hlen : (match_assets demoSnapshotR "rlc" (parse_request "rlc visual" [])).length
        = 2 := by
      with_unfolding_all rfl
    rw [hnil] at hlen
    simp at hlen
  all_goals with_unfolding_all rfl

set_option maxRecDepth 60000 in
/-- Counterexample for C3 as stated: the bare product query warewulf, on
a snapshot whose product has two logo variants, resolves the product with
no background or layout, yet the formatter returns the comprehensive
all-assets listing, not the clarifying question, because the zero-score
tie makes all_assets the primary intent. -/
theorem product_only_query_clarifies_counterexample :
    (parse_request "warewulf" []).product = some "warewulf" ∧
    (parse_request "warewulf" []).background = none ∧
    (parse_request "warewulf" []).layout = none ∧
    ((lookupAssets demoSnapshotW "warewulf").getD []).length = 2 ∧
    (((lookupAssets demoSnapshotW "warewulf").getD []).all
      fun ka => ka.2.ty == AssetType.logo) = true ∧
    (find_assets demoSnapshotW [] "warewulf").isClarify = false ∧
    (find_assets demoSnapshotW [] "warewulf").isComprehensive = true := by
  refine ⟨?_, ?_, ?_, ?_, ?_, ?_, ?_⟩ <;> with_unfolding_all rfl
